import Mathlib

/-!
Verification development for `src/txf_continuous_data_pipeline.py`.

Embedding conventions:
* Timestamps are integer minutes since 1970-01-01 00:00 local time
  (a calendar day has 1440 minutes).  Python `datetime` values are
  minute-resolution throughout the pipeline, so this is lossless.
* Prices and price differences are integers (the settlement sheet's
  `next_contract_diff` / `accumulated_contract_diff` are integral and the
  code applies `int(...)` before adding).
* pandas missing values (`NaN` after `to_numeric(errors='coerce')`,
  `NaT` after `to_datetime(errors='coerce')`) are modelled as `Option`:
  `none` is the missing value.  Comparisons against `NaT` are `False`
  in pandas, matching the `Option` pattern matches below.
* Operations that raise Python exceptions return `Option`/`Except`.
-/

/-- Calendar day of a timestamp.  `Int` division is Euclidean, which matches
floor division for the positive divisor 1440, i.e. real calendar days. -/
def tsDay (ts : Int) : Int := ts / 1440

/-- Hour-of-day of a timestamp (`ts.hour` on the Python side). -/
def tsHour (ts : Int) : Int := ts % 1440 / 60

/-- Session identifier.  The Python code uses the strings
`"%Y-%m-%d" + "_D"`, `"%Y-%m-%d" + "_N"` and `"UNKNOWN"`; the date format is
injective on calendar days, so we keep the day number itself. -/
inductive SessionId where
  | day (d : Int)
  | night (d : Int)
  | unknown
deriving DecidableEq, Repr

/-- `get_group_id` as defined (identically) inside
`DataProcessor.drop_incomplete_current_session` and
`DataProcessor.check_completeness`:
hour in `[8,13]` is the day session of that date, hour `≥ 15` the night
session of that date, hour `< 5` the night session of the previous date,
anything else (hours 5, 6, 7, 14) is `UNKNOWN`. -/
def get_group_id (ts : Int) : SessionId :=
  if 8 ≤ tsHour ts ∧ tsHour ts ≤ 13 then .day (tsDay ts)
  else if 15 ≤ tsHour ts then .night (tsDay ts)
  else if tsHour ts < 5 then .night (tsDay ts - 1)
  else .unknown

/-- The two timeframes the pipeline produces; the Python functions take the
strings `'5min'` / `'60min'` and return the input unchanged for any other
string (`if timeframe not in EXPECTED`), a case outside this type. -/
inductive Timeframe where
  | five
  | sixty
deriving DecidableEq, Repr

/-- The `EXPECTED` candle-count table.  The `UNKNOWN` row models
`EXPECTED[timeframe].get(last_group_id.split('_')[-1], 0)`, whose default
is 0 when the suffix is neither `D` nor `N`. -/
def expectedCount : Timeframe → SessionId → Nat
  | .five,  .day _   => 60
  | .five,  .night _ => 168
  | .sixty, .day _   => 5
  | .sixty, .night _ => 14
  | _,      .unknown => 0

/-- The per-session mismatch list built by `check_completeness`:
for every distinct non-`UNKNOWN` group id whose observed count differs from
the expected count, one entry `(group_id, observed, expected)`.
(`value_counts` enumerates distinct group ids; entry order is irrelevant to
the properties below, membership is what the error reports.) -/
def sessionErrors (groups : List SessionId) (tf : Timeframe) :
    List (SessionId × Nat × Nat) :=
  groups.dedup.filterMap (fun g =>
    match g with
    | .unknown => none
    | _ =>
      if (groups.filter (fun g2 => decide (g2 = g))).length ≠ expectedCount tf g then
        some (g, (groups.filter (fun g2 => decide (g2 = g))).length, expectedCount tf g)
      else none)

/-- `DataProcessor.check_completeness`.  The function only reads the frame's
index, so it is embedded generically over rows `α` with a timestamp
projection `tsOf`.  A raised `ValueError` (the pipeline's
`DataIntegrityError`) is the `.error` case, carrying the mismatch list. -/
def check_completeness {α : Type} (tsOf : α → Int) (df : List α) (tf : Timeframe) :
    Except (List (SessionId × Nat × Nat)) Unit :=
  if df.isEmpty then .ok ()
  else if (sessionErrors (df.map fun r => get_group_id (tsOf r)) tf).isEmpty then .ok ()
  else .error (sessionErrors (df.map fun r => get_group_id (tsOf r)) tf)

/-- `df.iloc[:-n]` on a frame of rows: every row but the last `n`.
Python slicing with `n = 0` gives the empty frame (`[:-0]` is `[:0]`);
in `drop_incomplete_current_session` the count is always ≥ 1 there. -/
def ilocDropLast {α : Type} (df : List α) (n : Nat) : List α :=
  if n = 0 then [] else df.take (df.length - n)

/-- `DataProcessor.drop_incomplete_current_session`.  `now` is the wall-clock
time (`datetime.now` in UTC+8) passed explicitly.  The count of the trailing
session is taken over the last 200 rows (`df.iloc[-200:]`), and when the
trailing session is the currently active one and short of the expected
count, the last `count` rows are discarded (`df.iloc[:-count]`). -/
def drop_incomplete_current_session {α : Type} (tsOf : α → Int) (df : List α)
    (tf : Timeframe) (now : Int) : List α :=
  match df.getLast? with
  | none => df
  | some lastRow =>
    let lastG := get_group_id (tsOf lastRow)
    let currentG := get_group_id now
    let tl := df.drop (df.length - 200)
    let cnt := (tl.filter (fun r => decide (get_group_id (tsOf r) = lastG))).length
    let expd := expectedCount tf lastG
    if lastG = currentG ∧ cnt < expd then ilocDropLast df cnt else df

/-- A settlement-schedule record as loaded by `SettleManager._load_config`:
`contract_year_month` stays a string, the numeric columns go through
`pd.to_numeric(errors='coerce')` and the timestamp columns through
`pd.to_datetime(errors='coerce')`, so each of those four is an `Option`
(`none` = `NaN`/`NaT`). -/
structure SettleRecord where
  contract_year_month : String
  start_k : Option Int
  settle_k : Option Int
  next_contract_diff : Option Int
  accumulated_contract_diff : Option Int
deriving DecidableEq, Repr

/-- The settlement-window membership test of `enrich_row`:
`(row.name >= start_k) & (row.name <= settle_k)`.  In pandas a comparison
against `NaT` is `False`, hence the catch-all case. -/
def inWindow (w : SettleRecord) (ts : Int) : Bool :=
  match w.start_k, w.settle_k with
  | some a, some b => decide (a ≤ ts ∧ ts ≤ b)
  | _, _ => false

/-- A resampled candle row.  `contract_year_month` and
`accumulated_contract_diff` are the metadata columns added by
`process_final_df` before `enrich_row` runs. -/
structure Candle where
  ts : Int
  Open : Int
  High : Int
  Low : Int
  Close : Int
  Volume : Int
  contract_year_month : String
  accumulated_contract_diff : Int
deriving DecidableEq, Repr

/-- `enrich_row` inside `DataProcessor.resample_and_split`: take the first
settlement window containing the row's timestamp (`match.iloc[0]`), add its
accumulated diff to OHLC and record its contract month; with no match the
row is returned as is.  `int(cfg['accumulated_contract_diff'])` raises on a
missing value, which is the `none` result. -/
def enrich_row (cfg : List SettleRecord) (row : Candle) : Option Candle :=
  match (cfg.filter (fun w => inWindow w row.ts)).head? with
  | none => some row
  | some w =>
    match w.accumulated_contract_diff with
    | none => none
    | some diff =>
      some { row with
        accumulated_contract_diff := diff,
        contract_year_month := w.contract_year_month,
        Open := row.Open + diff,
        High := row.High + diff,
        Low := row.Low + diff,
        Close := row.Close + diff }

/-- Stable insertion into a timestamp-sorted candle list. -/
def insertByTs (c : Candle) : List Candle → List Candle
  | [] => [c]
  | a :: l => if a.ts ≤ c.ts then a :: insertByTs c l else c :: a :: l

/-- Stable sort by timestamp, modelling `pd.concat(...).sort_index()`. -/
def sortByTs : List Candle → List Candle
  | [] => []
  | a :: l => insertByTs a (sortByTs l)

/-- `df.apply(f, axis=1)` when `f` can raise: the whole application raises
as soon as one row does. -/
def applyRows {α β : Type} (f : α → Option β) : List α → Option (List β)
  | [] => some []
  | a :: l =>
    match f a, applyRows f l with
    | some b, some bs => some (b :: bs)
    | _, _ => none

/-- `process_final_df` inside `DataProcessor.resample_and_split`:
concatenate the day and night frames, sort by timestamp, initialise the
metadata columns (`contract_year_month = ""`,
`accumulated_contract_diff = 0`) and enrich every row. -/
def process_final_df (cfg : List SettleRecord) (dfD dfN : List Candle) :
    Option (List Candle) :=
  applyRows (enrich_row cfg)
    ((sortByTs (dfD ++ dfN)).map
      (fun r => { r with contract_year_month := "", accumulated_contract_diff := 0 }))

/-- Day number (days since 1970-01-01) of a proleptic-Gregorian civil date,
the calendar Python `datetime` uses (standard civil-from-days conversion). -/
def daysFromCivil (y m d : Int) : Int :=
  let yAdj := if m ≤ 2 then y - 1 else y
  let era := (if 0 ≤ yAdj then yAdj else yAdj - 399) / 400
  let yoe := yAdj - era * 400
  let mp := (m + 9) % 12
  let doy := (153 * mp + 2) / 5 + d - 1
  let doe := yoe * 365 + yoe / 4 - yoe / 100 + doy
  era * 146097 + doe - 719468

/-- Civil date `(year, month, day)` of a day number (inverse of
`daysFromCivil`). -/
def civilFromDays (z : Int) : Int × Int × Int :=
  let z2 := z + 719468
  let era := (if 0 ≤ z2 then z2 else z2 - 146096) / 146097
  let doe := z2 - era * 146097
  let yoe := (doe - doe / 1460 + doe / 36524 - doe / 146096) / 365
  let y := yoe + era * 400
  let doy := doe - (365 * yoe + yoe / 4 - yoe / 100)
  let mp := (5 * doy + 2) / 153
  let d := doy - (153 * mp + 2) / 5 + 1
  let m := if mp < 10 then mp + 3 else mp - 9
  (if m ≤ 2 then y + 1 else y, m, d)

/-- Python `datetime.weekday()` of a day number: Monday = 0 … Sunday = 6.
1970-01-01 (day 0) was a Thursday (3). -/
def weekday (z : Int) : Int := (z + 3) % 7

/-- The `while third_wed.weekday() != 2: third_wed += timedelta(days=1)`
loop of `SettleManager.calculate_next_contract`, advancing one day at a
time until a Wednesday.  The loop needs at most 6 steps; `fuel = 7` is
always enough (see `weekday_advanceToWed`). -/
def advanceToWed : Nat → Int → Int
  | 0, z => z
  | n + 1, z => if weekday z = 2 then z else advanceToWed n (z + 1)

/-- Digit value of a character. -/
def digitVal (c : Char) : Int := Int.ofNat c.toNat - 48

/-- `datetime.strptime(s, '%Y%m')` for the canonical six-digit `YYYYMM`
form used by the settlement sheet, as `(year, month)`; anything else raises
`ValueError` (`none`). -/
def parseYm (s : String) : Option (Int × Int) :=
  match s.toList with
  | [c1, c2, c3, c4, c5, c6] =>
    if (c1.isDigit && c2.isDigit && c3.isDigit && c4.isDigit && c5.isDigit && c6.isDigit) then
      let y := ((digitVal c1 * 10 + digitVal c2) * 10 + digitVal c3) * 10 + digitVal c4
      let m := digitVal c5 * 10 + digitVal c6
      if 1 ≤ m ∧ m ≤ 12 then some (y, m) else none
    else none
  | _ => none

/-- Zero-pad a month number to two digits (`strftime('%m')`). -/
def pad2 (n : Int) : String := if n < 10 then "0" ++ toString n else toString n

/-- `strftime('%Y%m')` for the year-month pair (years of interest have four
digits). -/
def ymStr (y m : Int) : String := toString y ++ pad2 m

/-- `NaN`-propagating addition:
`last_row['accumulated_contract_diff'] + last_row['next_contract_diff']`. -/
def addOpt (x y : Option Int) : Option Int :=
  match x, y with
  | some a, some b => some (a + b)
  | _, _ => none

/-- Error cases surfacing from `SettleManager`:
`configError` is the `RuntimeError("Error loading settle config: ...")`
wrapper of `_load_config` (the spec's `ConfigError`); `indexError` is the
uncaught `IndexError` of `self.df_config.iloc[-1]` on an empty config;
`valueError` is the uncaught `ValueError` of `datetime.strptime` on an
unparseable `contract_year_month`. -/
inductive PipelineErr where
  | configError (msg : String)
  | indexError
  | valueError
deriving DecidableEq, Repr

/-- `SettleManager.calculate_next_contract`: read the last config record,
parse its `YYYYMM`, step to the next month by adding 31 days to the first
of the month, compute the third Wednesday of that month (first of month
+ 14 days, then advance to a Wednesday) at 13:25, extend the in-memory
config with the predicted record and return `"MXF" + new_ym`.
The appended row sets no `next_contract_diff`, hence `none` (`NaN`). -/
def calculate_next_contract (cfg : List SettleRecord) :
    Except PipelineErr (String × List SettleRecord) :=
  match cfg.getLast? with
  | none => .error .indexError
  | some lastRow =>
    match parseYm lastRow.contract_year_month with
    | none => .error .valueError
    | some (y, m) =>
      let newYmDay := daysFromCivil y m 1 + 31
      let ny := (civilFromDays newYmDay).1
      let nm := (civilFromDays newYmDay).2.1
      let newYm := ymStr ny nm
      let thirdWed := advanceToWed 7 (daysFromCivil ny nm 1 + 14)
      let newSettle := thirdWed * 1440 + (13 * 60 + 25)
      let newRec : SettleRecord :=
        { contract_year_month := newYm,
          start_k := lastRow.settle_k.map (fun t => t + 5),
          settle_k := some newSettle,
          next_contract_diff := none,
          accumulated_contract_diff :=
            addOpt lastRow.accumulated_contract_diff lastRow.next_contract_diff }
      .ok ("MXF" ++ newYm, cfg ++ [newRec])

/-- `pd.to_datetime(errors='coerce')` for the canonical
`YYYY-MM-DD HH:MM:SS` cell format of the settlement sheet, as minutes
(candle and settlement times are minute-aligned, seconds are `00`);
other strings coerce to `NaT` (`none`). -/
def parseDateTime (s : String) : Option Int :=
  match s.toList with
  | [y1, y2, y3, y4, '-', m1, m2, '-', d1, d2, ' ', h1, h2, ':', mi1, mi2, ':', '0', '0'] =>
    if (y1.isDigit && y2.isDigit && y3.isDigit && y4.isDigit && m1.isDigit && m2.isDigit &&
        d1.isDigit && d2.isDigit && h1.isDigit && h2.isDigit && mi1.isDigit && mi2.isDigit) then
      let y := ((digitVal y1 * 10 + digitVal y2) * 10 + digitVal y3) * 10 + digitVal y4
      let mo := digitVal m1 * 10 + digitVal m2
      let d := digitVal d1 * 10 + digitVal d2
      let h := digitVal h1 * 10 + digitVal h2
      let mi := digitVal mi1 * 10 + digitVal mi2
      some (daysFromCivil y mo d * 1440 + h * 60 + mi)
    else none
  | _ => none

/-- `SettleManager._load_config` on the raw worksheet contents
(`get_all_values()`): `data[0]` is the header, the rest the rows
(`get_all_values` pads them to the header's width).
Any exception inside the `try` is wrapped in the config `RuntimeError`:
an empty worksheet (`data[0]` raises `IndexError`); a missing converted
column (`df[col]` raises `KeyError`); a converted column occurring more
than once in the header (`df[col]` is then a frame, and
`pd.to_numeric` / `pd.to_datetime` raise); and a missing
`contract_year_month` (`dropna(subset=...)` raises `KeyError`).  The four
conversions happen in the code's order, but every failure yields the same
wrapped error, so one guard models them.  A duplicated
`contract_year_month` does not raise (`dropna` accepts duplicate labels),
and the final `dropna` removes no row: that column is never coerced, and
`get_all_values` yields strings, which are never `NaN`. -/
def load_config (data : List (List String)) : Except PipelineErr (List SettleRecord) :=
  match data with
  | [] => .error (.configError "Error loading settle config")
  | header :: rows =>
    if (header.filter (fun c => decide (c = "next_contract_diff"))).length = 1 ∧
        (header.filter (fun c => decide (c = "accumulated_contract_diff"))).length = 1 ∧
        (header.filter (fun c => decide (c = "start_k"))).length = 1 ∧
        (header.filter (fun c => decide (c = "settle_k"))).length = 1 ∧
        1 ≤ (header.filter (fun c => decide (c = "contract_year_month"))).length then
      .ok (rows.map (fun r =>
        { contract_year_month :=
            r.getD ((header.findIdx? (fun c => decide (c = "contract_year_month"))).getD 0) "",
          start_k := parseDateTime
            (r.getD ((header.findIdx? (fun c => decide (c = "start_k"))).getD 0) ""),
          settle_k := parseDateTime
            (r.getD ((header.findIdx? (fun c => decide (c = "settle_k"))).getD 0) ""),
          next_contract_diff :=
            (r.getD ((header.findIdx? (fun c => decide (c = "next_contract_diff"))).getD 0) "").toInt?,
          accumulated_contract_diff :=
            (r.getD ((header.findIdx?
              (fun c => decide (c = "accumulated_contract_diff"))).getD 0) "").toInt? }))
    else .error (.configError "Error loading settle config")

/-- A spreadsheet cell.  `get_all_values` yields strings; a cell whose text
parses as a timestamp (the `ts` column's `%Y-%m-%d %H:%M:%S` format is
injective) is modelled as `tstamp`, any other text as `str`. -/
inductive Cell where
  | tstamp (t : Int)
  | str (s : String)
deriving DecidableEq, Repr

/-- `pd.to_datetime` on one cell: succeeds exactly on timestamp text. -/
def parseTs : Cell → Option Int
  | .tstamp t => some t
  | .str _ => none

/-- A newly computed candle row as handed to `SheetUploader._prepare_data`
after `reset_index`: the minute timestamp (the former index, formatted as
`%Y-%m-%d %H:%M:%S`) plus the remaining cells, positionally aligned with
the frame's non-index column list. -/
structure NewRow where
  ts : Int
  cells : List Cell
deriving DecidableEq, Repr

/-- Value of column `c` in a new row, given the frame's non-index columns. -/
def cellOf (newCols : List String) (r : NewRow) (c : String) : Cell :=
  if c = "ts" then .tstamp r.ts
  else
    match newCols.findIdx? (fun c2 => decide (c2 = c)) with
    | some i => r.cells.getD i (.str "")
    | none => .str ""

/-- `[c for c in headers if c in df_process.columns]`: the destination
header names that are also frame columns, in header order.  Header cells
are the sheet's text cells. -/
def validCols (headers : List Cell) (dfCols : List String) : List String :=
  headers.filterMap (fun hc =>
    match hc with
    | .str s => if s ∈ dfCols then some s else none
    | .tstamp _ => none)

/-- `headers.index('ts') if 'ts' in headers else 0`. -/
def tsColIdx (headers : List Cell) : Nat :=
  match headers.findIdx? (fun c => decide (c = Cell.str "ts")) with
  | some i => i
  | none => 0

/-- `pd.to_datetime(existing_data[-1][ts_col_idx])`: the timestamp of the
last existing data row; `none` on a short row (`IndexError`) or
unparseable text, both caught by `_prepare_data`'s `except`. -/
def lastRowTs (headers : List Cell) (rest : List (List Cell)) : Option Int :=
  match rest.getLast? with
  | none => none
  | some lastRow =>
    match lastRow.get? (tsColIdx headers) with
    | none => none
    | some cell => parseTs cell

/-- `SheetUploader._prepare_data`, returning the emitted column list, the
selected rows and the needs-header flag.  Case A: empty destination, emit
header (with `ts` first) and all rows.  Case B: header only, emit all rows
restricted to the header's columns, no header.  Case C: header plus data,
keep only rows strictly newer than the last existing timestamp, restricted
to the header's columns; an empty selection or a caught exception yields
an empty frame. -/
def prepare_data (newCols : List String) (rows : List NewRow) :
    List (List Cell) → List String × List NewRow × Bool
  | [] => ("ts" :: newCols.filter (fun c => decide (¬ c = "ts")), rows, true)
  | [headers] => (validCols headers ("ts" :: newCols), rows, false)
  | headers :: r2 :: rest =>
    match lastRowTs headers (r2 :: rest) with
    | none => ([], [], false)
    | some lastTs =>
      let sel := rows.filter (fun r => decide (lastTs < r.ts))
      if sel.isEmpty then ([], [], false)
      else (validCols headers ("ts" :: newCols), sel, false)

/-- `SheetUploader.append_safely` after the destination read: the rows
appended by the single `worksheet.append_rows` call, or `none` when no
write happens (`df_export.empty` is true when it has no rows or no
columns).  With the needs-header flag the emitted column list is written
first as a header row. -/
def append_safely (newCols : List String) (rows : List NewRow)
    (existing : List (List Cell)) : Option (List (List Cell)) :=
  let prep := prepare_data newCols rows existing
  if ¬ prep.2.1.isEmpty ∧ ¬ prep.1.isEmpty then
    some ((if prep.2.2 then [prep.1.map Cell.str] else []) ++
      prep.2.1.map (fun r => prep.1.map (fun c => cellOf newCols r c)))
  else none

/-- The `__main__` data path from the two resampled frames to the two
uploads: drop a still-open trailing session per timeframe, then the strict
completeness check for 5min and for 60min (a raised `ValueError` aborts
before any upload), then one `append_safely` per destination tab.
The result carries the rows written to each tab (`none` = no write). -/
def mainFlow (newCols : List String) (rows5 rows60 : List NewRow)
    (sheet5 sheet60 : List (List Cell)) (now : Int) :
    Except (List (SessionId × Nat × Nat))
      (Option (List (List Cell)) × Option (List (List Cell))) :=
  match check_completeness (fun r => r.ts)
      (drop_incomplete_current_session (fun r => r.ts) rows5 .five now) .five with
  | .error e => .error e
  | .ok _ =>
    match check_completeness (fun r => r.ts)
        (drop_incomplete_current_session (fun r => r.ts) rows60 .sixty now) .sixty with
    | .error e => .error e
    | .ok _ =>
      .ok (append_safely newCols
          (drop_incomplete_current_session (fun r => r.ts) rows5 .five now) sheet5,
        append_safely newCols
          (drop_incomplete_current_session (fun r => r.ts) rows60 .sixty now) sheet60)

/-! ### Session-id facts -/

theorem get_group_id_day_iff (ts d : Int) :
    get_group_id ts = .day d ↔ 1440 * d + 480 ≤ ts ∧ ts < 1440 * d + 840 := by
  unfold get_group_id
  split_ifs with h1 h2 h3
  · simp only [SessionId.day.injEq]
    unfold tsDay tsHour at *
    omega
  · constructor
    · intro h; simp at h
    · intro hR; exfalso; unfold tsHour at h1; omega
  · constructor
    · intro h; simp at h
    · intro hR; exfalso; unfold tsHour at h1; omega
  · constructor
    · intro h; simp at h
    · intro hR; exfalso; unfold tsHour at h1; omega

theorem get_group_id_night_iff (ts d : Int) :
    get_group_id ts = .night d ↔ 1440 * d + 900 ≤ ts ∧ ts < 1440 * d + 1740 := by
  unfold get_group_id
  split_ifs with h1 h2 h3
  · constructor
    · intro h; simp at h
    · intro hR; exfalso; unfold tsHour at h1; omega
  · simp only [SessionId.night.injEq]
    unfold tsDay tsHour at *
    omega
  · simp only [SessionId.night.injEq]
    unfold tsDay tsHour at *
    omega
  · constructor
    · intro h; simp at h
    · intro hR; exfalso; unfold tsHour at h1 h2 h3; omega

/-- The timestamps of one (non-`UNKNOWN`) session form an interval: a
timestamp lying between two timestamps of the same session belongs to it. -/
theorem get_group_id_convex {t1 t2 t3 : Int} (h12 : t1 ≤ t2) (h23 : t2 ≤ t3)
    (h13 : get_group_id t1 = get_group_id t3)
    (hne : get_group_id t3 ≠ .unknown) :
    get_group_id t2 = get_group_id t3 := by
  cases hg : get_group_id t3 with
  | unknown => exact absurd hg hne
  | day d =>
    rw [hg] at h13
    have a1 := (get_group_id_day_iff t1 d).mp h13
    have a3 := (get_group_id_day_iff t3 d).mp hg
    exact (get_group_id_day_iff t2 d).mpr ⟨by omega, by omega⟩
  | night d =>
    rw [hg] at h13
    have a1 := (get_group_id_night_iff t1 d).mp h13
    have a3 := (get_group_id_night_iff t3 d).mp hg
    exact (get_group_id_night_iff t2 d).mpr ⟨by omega, by omega⟩

/-! ### Completeness check (C2, C10) -/

theorem mem_sessionErrors (groups : List SessionId) (tf : Timeframe)
    (g : SessionId) (n k : Nat) :
    (g, n, k) ∈ sessionErrors groups tf ↔
      g ∈ groups ∧ g ≠ .unknown ∧
      n = (groups.filter (fun g2 => decide (g2 = g))).length ∧
      k = expectedCount tf g ∧ n ≠ k := by
  unfold sessionErrors
  rw [List.mem_filterMap]
  constructor
  · rintro ⟨g', hg', hf⟩
    cases g' with
    | unknown => exact absurd hf (by simp)
    | day d =>
      simp only at hf
      split_ifs at hf with hc
      · obtain ⟨rfl, rfl, rfl⟩ : SessionId.day d = g ∧
            (groups.filter (fun g2 => decide (g2 = SessionId.day d))).length = n ∧
            expectedCount tf (SessionId.day d) = k := by
          simpa using hf
        exact ⟨List.mem_dedup.mp hg', by simp, rfl, rfl, hc⟩
    | night d =>
      simp only at hf
      split_ifs at hf with hc
      · obtain ⟨rfl, rfl, rfl⟩ : SessionId.night d = g ∧
            (groups.filter (fun g2 => decide (g2 = SessionId.night d))).length = n ∧
            expectedCount tf (SessionId.night d) = k := by
          simpa using hf
        exact ⟨List.mem_dedup.mp hg', by simp, rfl, rfl, hc⟩
  · rintro ⟨hmem, hne, rfl, rfl, hnk⟩
    refine ⟨g, List.mem_dedup.mpr hmem, ?_⟩
    cases g with
    | unknown => exact absurd rfl hne
    | day d => simp only [if_pos hnk]
    | night d => simp only [if_pos hnk]

/-- C2: `check_completeness` raises a `DataIntegrityError` exactly when some
session group with a known D/N id has an observed candle count differing
from the expected count for the timeframe, and the raised error lists
every offending session id with its observed and expected counts;
`UNKNOWN` groups are silently excluded, and with no mismatch the function
returns normally (it never modifies its input). -/
theorem C2_check_completeness {α : Type} (tsOf : α → Int) (df : List α) (tf : Timeframe) :
    (check_completeness tsOf df tf = .ok () ↔
      ∀ g ∈ df.map (fun r => get_group_id (tsOf r)), g ≠ SessionId.unknown →
        ((df.map fun r => get_group_id (tsOf r)).filter (fun g2 => decide (g2 = g))).length
          = expectedCount tf g) ∧
    ∀ errs, check_completeness tsOf df tf = .error errs →
      ∀ g n k, ((g, n, k) ∈ errs ↔
        g ∈ df.map (fun r => get_group_id (tsOf r)) ∧ g ≠ SessionId.unknown ∧
        n = ((df.map fun r => get_group_id (tsOf r)).filter (fun g2 => decide (g2 = g))).length ∧
        k = expectedCount tf g ∧ n ≠ k) := by
  unfold check_completeness
  split_ifs with he hse
  · rw [List.isEmpty_iff] at he
    subst he
    constructor
    · simp
    · intro errs h; cases h
  · rw [List.isEmpty_iff] at hse
    constructor
    · constructor
      · intro _ g hg hne
        by_contra hcnt
        have : (g, ((df.map fun r => get_group_id (tsOf r)).filter
            (fun g2 => decide (g2 = g))).length, expectedCount tf g) ∈
            sessionErrors (df.map fun r => get_group_id (tsOf r)) tf :=
          (mem_sessionErrors _ _ _ _ _).mpr ⟨hg, hne, rfl, rfl, hcnt⟩
        rw [hse] at this
        cases this
      · intro _; rfl
    · intro errs h; cases h
  · rw [List.isEmpty_iff] at hse
    constructor
    · constructor
      · intro h; cases h
      · intro hall
        exfalso
        obtain ⟨⟨g, n, k⟩, hmem⟩ := List.exists_mem_of_ne_nil _ hse
        obtain ⟨hg, hne, rfl, rfl, hnk⟩ := (mem_sessionErrors _ _ _ _ _).mp hmem
        exact hnk (hall g hg hne)
    · intro errs h
      have herrs : errs = sessionErrors (df.map fun r => get_group_id (tsOf r)) tf := by
        cases h; rfl
      subst herrs
      intro g n k
      exact mem_sessionErrors _ _ _ _ _

set_option maxRecDepth 4000 in
/-- Witness for C2: a complete day session of 60 five-minute candles
(2024-03-18, 08:45–13:40) passes the check. -/
theorem C2_check_completeness_witness :
    check_completeness (fun t : Int => t)
      ((List.range 60).map (fun i => 28512525 + 5 * (i : Int))) Timeframe.five = .ok () :=
  (C2_check_completeness (fun t : Int => t) _ Timeframe.five).1.mpr (by decide)

/-- C10: the completeness check returns normally on an empty candle
sequence (the `df.empty` early return), so a run in which the
trailing-session drop removed every remaining candle passes the strict
validation silently; the drop step itself also returns the empty frame
unchanged. -/
theorem C10_check_completeness_empty {α : Type} (tsOf : α → Int) (tf : Timeframe) (now : Int) :
    check_completeness tsOf ([] : List α) tf = .ok () ∧
    drop_incomplete_current_session tsOf ([] : List α) tf now = [] :=
  ⟨rfl, rfl⟩

/-! ### Trailing-session drop (C3) -/

theorem tsOf_le_getLast {α : Type} (tsOf : α → Int) (df : List α) (z : α) :
    df.Pairwise (fun a b => tsOf a ≤ tsOf b) → df.getLast? = some z →
    ∀ x ∈ df, tsOf x ≤ tsOf z := by
  induction df with
  | nil => intro _ hz; cases hz
  | cons a rest ih =>
    intro hp hz
    cases rest with
    | nil =>
      obtain rfl : a = z := by simpa using hz
      intro x hx
      obtain rfl : x = a := by simpa using hx
      exact le_refl _
    | cons b rs =>
      rw [List.getLast?_cons_cons] at hz
      have hzmem : z ∈ b :: rs := List.mem_of_mem_getLast? (by rw [hz]; rfl)
      intro x hx
      rcases List.mem_cons.mp hx with rfl | hx2
      · exact List.rel_of_pairwise_cons hp hzmem
      · exact ih hp.tail hz x hx2

/-- In a timestamp-sorted frame whose last row's session is known, the rows
of that session are exactly a suffix: the frame splits into the rows of the
other sessions followed by the rows of the trailing session. -/
theorem split_by_last_group {α : Type} (tsOf : α → Int) (df : List α) (z : α) :
    df.Pairwise (fun a b => tsOf a ≤ tsOf b) → df.getLast? = some z →
    get_group_id (tsOf z) ≠ .unknown →
    df = df.filter (fun r => decide (¬ get_group_id (tsOf r) = get_group_id (tsOf z)))
         ++ df.filter (fun r => decide (get_group_id (tsOf r) = get_group_id (tsOf z))) := by
  induction df with
  | nil => intro _ hz _; cases hz
  | cons a rest ih =>
    intro hp hz hne
    by_cases hPa : get_group_id (tsOf a) = get_group_id (tsOf z)
    · have hall : ∀ x ∈ a :: rest, get_group_id (tsOf x) = get_group_id (tsOf z) := by
        intro x hx
        have hle2 : tsOf x ≤ tsOf z := tsOf_le_getLast tsOf (a :: rest) z hp hz x hx
        have hle1 : tsOf a ≤ tsOf x := by
          rcases List.mem_cons.mp hx with rfl | hx2
          · exact le_refl _
          · exact List.rel_of_pairwise_cons hp hx2
        exact get_group_id_convex hle1 hle2 hPa hne
      have h1 : (a :: rest).filter
          (fun r => decide (¬ get_group_id (tsOf r) = get_group_id (tsOf z))) = [] := by
        rw [List.filter_eq_nil_iff]
        intro x hx
        simpa using hall x hx
      have h2 : (a :: rest).filter
          (fun r => decide (get_group_id (tsOf r) = get_group_id (tsOf z))) = a :: rest :=
        List.filter_eq_self.mpr (fun x hx => by simpa using hall x hx)
      rw [h1, h2, List.nil_append]
    · have hrest : rest ≠ [] := by
        rintro rfl
        obtain rfl : a = z := by simpa using hz
        exact hPa rfl
      obtain ⟨b, rs, rfl⟩ := List.exists_cons_of_ne_nil hrest
      rw [List.getLast?_cons_cons] at hz
      have hIH := ih hp.tail hz hne
      have e1 : decide (¬ get_group_id (tsOf a) = get_group_id (tsOf z)) = true := by
        simp [hPa]
      have e2 : decide (get_group_id (tsOf a) = get_group_id (tsOf z)) = false := by
        simp [hPa]
      rw [List.filter_cons_of_pos
          (p := fun r => decide (¬ get_group_id (tsOf r) = get_group_id (tsOf z))) e1,
        List.filter_cons_of_neg
          (p := fun r => decide (get_group_id (tsOf r) = get_group_id (tsOf z)))
          (by simp [e2]),
        List.cons_append]
      exact congrArg (a :: ·) hIH

/-- Rows of the trailing 200 that pass `P`, when the frame is a `¬P` block
followed by a `P` block: the count is the size of the `P` block capped
at 200. -/
theorem filter_length_tail200 {α : Type} (P : α → Bool) (A B : List α)
    (hA : ∀ x ∈ A, ¬ P x = true) (hB : ∀ x ∈ B, P x = true) :
    (((A ++ B).drop ((A ++ B).length - 200)).filter P).length = min B.length 200 := by
  rw [List.length_append]
  by_cases hc : A.length + B.length - 200 ≤ A.length
  · rw [List.drop_append_of_le_length hc, List.filter_append,
      List.filter_eq_nil_iff.mpr (fun x hx => hA x (List.mem_of_mem_drop hx)),
      List.filter_eq_self.mpr hB, List.nil_append]
    omega
  · rw [show A.length + B.length - 200 = A.length + (B.length - 200) from by omega,
      List.drop_append,
      List.filter_eq_self.mpr (fun x hx => hB x (List.mem_of_mem_drop hx)),
      List.length_drop]
    omega

theorem expectedCount_le (tf : Timeframe) (g : SessionId) : expectedCount tf g ≤ 168 := by
  cases tf <;> cases g <;> simp [expectedCount]

/-- C3: on a time-sorted candle frame, `drop_incomplete_current_session`
removes exactly the candles of the trailing session (the last candle's
session id) precisely when that id equals the session id of the current
wall-clock time and its count within the last 200 candles is strictly
below the expected count for the timeframe; in every other case the frame
is returned unchanged. -/
theorem C3_drop_incomplete {α : Type} (tsOf : α → Int) (df : List α)
    (tf : Timeframe) (now : Int) (lastRow : α)
    (hp : df.Pairwise (fun a b => tsOf a ≤ tsOf b))
    (hl : df.getLast? = some lastRow) :
    ((get_group_id (tsOf lastRow) = get_group_id now ∧
        ((df.drop (df.length - 200)).filter
          (fun r => decide (get_group_id (tsOf r) = get_group_id (tsOf lastRow)))).length
          < expectedCount tf (get_group_id (tsOf lastRow))) →
      drop_incomplete_current_session tsOf df tf now
        = df.filter (fun r => decide (¬ get_group_id (tsOf r) = get_group_id (tsOf lastRow)))) ∧
    (¬ (get_group_id (tsOf lastRow) = get_group_id now ∧
        ((df.drop (df.length - 200)).filter
          (fun r => decide (get_group_id (tsOf r) = get_group_id (tsOf lastRow)))).length
          < expectedCount tf (get_group_id (tsOf lastRow))) →
      drop_incomplete_current_session tsOf df tf now = df) := by
  have hred : drop_incomplete_current_session tsOf df tf now =
      if get_group_id (tsOf lastRow) = get_group_id now ∧
          ((df.drop (df.length - 200)).filter
            (fun r => decide (get_group_id (tsOf r) = get_group_id (tsOf lastRow)))).length
            < expectedCount tf (get_group_id (tsOf lastRow)) then
        ilocDropLast df
          ((df.drop (df.length - 200)).filter
            (fun r => decide (get_group_id (tsOf r) = get_group_id (tsOf lastRow)))).length
      else df := by
    unfold drop_incomplete_current_session
    rw [hl]
  constructor
  · intro hcond
    rw [hred, if_pos hcond]
    have hGne : get_group_id (tsOf lastRow) ≠ SessionId.unknown := by
      intro hu
      have h0 : expectedCount tf SessionId.unknown = 0 := by cases tf <;> rfl
      rw [hu, h0] at hcond
      exact absurd hcond.2 (by omega)
    set A := df.filter
      (fun r => decide (¬ get_group_id (tsOf r) = get_group_id (tsOf lastRow))) with hAdef
    set B := df.filter
      (fun r => decide (get_group_id (tsOf r) = get_group_id (tsOf lastRow))) with hBdef
    have hsplit : df = A ++ B := split_by_last_group tsOf df lastRow hp hl hGne
    have hA : ∀ x ∈ A,
        ¬ (fun r => decide (get_group_id (tsOf r) = get_group_id (tsOf lastRow))) x = true := by
      intro x hx
      rw [hAdef] at hx
      simpa using List.of_mem_filter
        (p := fun r => decide (¬ get_group_id (tsOf r) = get_group_id (tsOf lastRow))) hx
    have hB : ∀ x ∈ B,
        (fun r => decide (get_group_id (tsOf r) = get_group_id (tsOf lastRow))) x = true := by
      intro x hx
      rw [hBdef] at hx
      exact List.of_mem_filter
        (p := fun r => decide (get_group_id (tsOf r) = get_group_id (tsOf lastRow))) hx
    have hcnt : ((df.drop (df.length - 200)).filter
        (fun r => decide (get_group_id (tsOf r) = get_group_id (tsOf lastRow)))).length
        = min B.length 200 := by
      conv_lhs => rw [hsplit]
      exact filter_length_tail200 _ A B hA hB
    have hlast_mem : lastRow ∈ B := by
      rw [hBdef]
      exact List.mem_filter.mpr ⟨List.mem_of_mem_getLast? (by rw [hl]; rfl), by simp⟩
    have hBpos : 0 < B.length := List.length_pos.mpr (List.ne_nil_of_mem hlast_mem)
    have hexp : expectedCount tf (get_group_id (tsOf lastRow)) ≤ 168 := expectedCount_le tf _
    have hble : B.length ≤ 200 := by
      by_contra hgt
      rw [hcnt] at hcond
      exact absurd hcond.2 (by omega)
    have hcnt2 : ((df.drop (df.length - 200)).filter
        (fun r => decide (get_group_id (tsOf r) = get_group_id (tsOf lastRow)))).length
        = B.length := by rw [hcnt]; omega
    rw [hcnt2]
    unfold ilocDropLast
    rw [if_neg (by omega)]
    have hlen : df.length = A.length + B.length := by
      conv_lhs => rw [hsplit]
      exact List.length_append A B
    rw [hlen, show A.length + B.length - B.length = A.length from by omega]
    conv_lhs => rw [hsplit]
    exact List.take_left A B
  · intro hcond
    rw [hred, if_neg hcond]

/-- Witness for C3: three 60-minute day candles (2024-03-18 09:00, 10:00,
11:00) with the wall clock still inside that day session: 3 < 5 expected,
so the whole trailing session is dropped and nothing remains. -/
theorem C3_drop_incomplete_witness :
    drop_incomplete_current_session (fun t : Int => t)
      [28512540, 28512600, 28512660] Timeframe.sixty 28512700 = [] := by
  have h := (C3_drop_incomplete (fun t : Int => t) [28512540, 28512600, 28512660]
    Timeframe.sixty 28512700 28512660 (by decide) (by decide)).1 (by decide)
  exact h.trans (by decide)

/-! ### Settlement-window uniqueness (C9) -/

/-- Under the contiguity invariant, every record after the head starts
strictly later than the head's settlement. -/
theorem chain_settle_lt_start (a : SettleRecord) (l : List SettleRecord) :
    List.Chain' (fun p q => ∃ s, p.settle_k = some s ∧ q.start_k = some (s + 5)) (a :: l) →
    (∀ w ∈ a :: l, ∃ x y, w.start_k = some x ∧ w.settle_k = some y ∧ x ≤ y) →
    ∀ b ∈ l, ∃ sa sb, a.settle_k = some sa ∧ b.start_k = some sb ∧ sa < sb := by
  induction l generalizing a with
  | nil => intro _ _ b hb; cases hb
  | cons r rs ih =>
    intro hch hv b hb
    rw [List.chain'_cons] at hch
    obtain ⟨⟨s, hsa, hrst⟩, hch2⟩ := hch
    rcases List.mem_cons.mp hb with rfl | hb2
    · exact ⟨s, s + 5, hsa, hrst, by omega⟩
    · obtain ⟨sr, sb, hrs2, hbs, hlt⟩ :=
        ih r hch2 (fun w hw => hv w (List.mem_cons_of_mem a hw)) b hb2
      obtain ⟨x, y, hrx, hry, hxy⟩ := hv r (by simp)
      have hx : x = s + 5 := by rw [hrst] at hrx; exact (Option.some.inj hrx).symm
      have hy : y = sr := by rw [hry] at hrs2; exact Option.some.inj hrs2
      exact ⟨s, sb, hsa, hbs, by omega⟩

/-- If the head window matches a timestamp, no later window in the chain
matches it. -/
theorem later_no_match (a : SettleRecord) (l : List SettleRecord) (ts : Int)
    (hch : List.Chain' (fun p q => ∃ s, p.settle_k = some s ∧ q.start_k = some (s + 5)) (a :: l))
    (hv : ∀ w ∈ a :: l, ∃ x y, w.start_k = some x ∧ w.settle_k = some y ∧ x ≤ y)
    (ha : inWindow a ts = true) :
    ∀ b ∈ l, inWindow b ts = false := by
  intro b hb
  obtain ⟨sa, sb, hsa, hbs, hlt⟩ := chain_settle_lt_start a l hch hv b hb
  obtain ⟨x, y, hax, hay, _⟩ := hv a (by simp)
  obtain ⟨x2, y2, hbx, hby, _⟩ := hv b (List.mem_cons_of_mem a hb)
  have hysa : y = sa := by rw [hay] at hsa; exact Option.some.inj hsa
  have hx2sb : x2 = sb := by rw [hbx] at hbs; exact Option.some.inj hbs
  unfold inWindow at ha ⊢
  rw [hax, hay] at ha
  rw [hbx, hby]
  have hts : x ≤ ts ∧ ts ≤ y := by simpa using ha
  simp only [decide_eq_false_iff_not]
  intro hcontra
  omega

theorem window_match_aux (ts : Int) : ∀ (cfg : List SettleRecord),
    List.Chain' (fun p q => ∃ s, p.settle_k = some s ∧ q.start_k = some (s + 5)) cfg →
    (∀ w ∈ cfg, ∃ x y, w.start_k = some x ∧ w.settle_k = some y ∧ x ≤ y) →
    (cfg.filter (fun w => inWindow w ts)).length ≤ 1 ∧
    ∀ w ∈ cfg, inWindow w ts = true →
      (cfg.filter (fun w2 => inWindow w2 ts)).head? = some w := by
  intro cfg
  induction cfg with
  | nil => intro _ _; exact ⟨by simp, by simp⟩
  | cons a l ih =>
    intro hch hv
    by_cases ha : inWindow a ts = true
    · have hnone : ∀ b ∈ l, inWindow b ts = false := later_no_match a l ts hch hv ha
      have hfl : l.filter (fun w => inWindow w ts) = [] :=
        List.filter_eq_nil_iff.mpr (fun b hb => by rw [hnone b hb]; simp)
      rw [List.filter_cons_of_pos (p := fun w => inWindow w ts) ha, hfl]
      refine ⟨by simp, ?_⟩
      intro w hw hwin
      rcases List.mem_cons.mp hw with rfl | hwl
      · rfl
      · exact absurd hwin (by rw [hnone w hwl]; simp)
    · have haf : inWindow a ts = false := by simpa using ha
      rw [List.filter_cons_of_neg (p := fun w => inWindow w ts) (by simp [haf])]
      obtain ⟨ih1, ih2⟩ := ih hch.tail (fun w hw => hv w (List.mem_cons_of_mem a hw))
      refine ⟨ih1, ?_⟩
      intro w hw hwin
      rcases List.mem_cons.mp hw with rfl | hwl
      · exact absurd hwin (by simp [haf])
      · exact ih2 w hwl hwin

/-- C9: under the settlement-schedule invariant (each window has
`start_k ≤ settle_k` and consecutive windows are contiguous with
`next.start_k = prev.settle_k + 5` minutes), a timestamp is contained in
at most one window under inclusive-inclusive matching, and for any
matching window the enrichment step's pick — the first match — is exactly
that window. -/
theorem C9_window_uniqueness (cfg : List SettleRecord)
    (hch : List.Chain' (fun p q => ∃ s, p.settle_k = some s ∧ q.start_k = some (s + 5)) cfg)
    (hv : ∀ w ∈ cfg, ∃ x y, w.start_k = some x ∧ w.settle_k = some y ∧ x ≤ y)
    (ts : Int) :
    (cfg.filter (fun w => inWindow w ts)).length ≤ 1 ∧
    ∀ w ∈ cfg, inWindow w ts = true →
      (cfg.filter (fun w2 => inWindow w2 ts)).head? = some w :=
  window_match_aux ts cfg hch hv

/-- Witness for C9: two contiguous windows (settle 100, next start 105);
the timestamp 50 matches only the first window, which is the pick. -/
theorem C9_window_uniqueness_witness :
    (([⟨"202403", some 0, some 100, some 1, some 10⟩,
       ⟨"202404", some 105, some 200, some 2, some 30⟩] : List SettleRecord).filter
        (fun w => inWindow w 50)).head?
      = some ⟨"202403", some 0, some 100, some 1, some 10⟩ :=
  (C9_window_uniqueness _
    (List.chain'_cons.mpr ⟨⟨100, rfl, rfl⟩, List.chain'_singleton _⟩)
    (by
      intro w hw
      rcases List.mem_cons.mp hw with rfl | hw2
      · exact ⟨0, 100, rfl, rfl, by omega⟩
      · rcases List.mem_cons.mp hw2 with rfl | h3
        · exact ⟨105, 200, rfl, rfl, by omega⟩
        · cases h3)
    50).2 _ (by decide) (by decide)

/-! ### Back-adjustment of resampled candles (C1) -/

theorem mem_insertByTs (c x : Candle) (l : List Candle) :
    x ∈ insertByTs c l ↔ x = c ∨ x ∈ l := by
  induction l with
  | nil => simp [insertByTs]
  | cons a rest ih =>
    unfold insertByTs
    split_ifs
    · simp only [List.mem_cons, ih]
      tauto
    · simp only [List.mem_cons]

theorem mem_sortByTs (x : Candle) (l : List Candle) : x ∈ sortByTs l ↔ x ∈ l := by
  induction l with
  | nil => simp [sortByTs]
  | cons a rest ih =>
    unfold sortByTs
    rw [mem_insertByTs]
    simp [ih]

theorem applyRows_mem {α β : Type} (f : α → Option β) (l : List α) (out : List β)
    (h : applyRows f l = some out) : ∀ b ∈ out, ∃ a ∈ l, f a = some b := by
  induction l generalizing out with
  | nil =>
    obtain rfl : [] = out := by simpa [applyRows] using h
    simp
  | cons a rest ih =>
    unfold applyRows at h
    rcases hfa : f a with _ | b0 <;> rw [hfa] at h
    · cases h
    · rcases hal : applyRows f rest with _ | bs <;> rw [hal] at h
      · cases h
      · obtain rfl : b0 :: bs = out := by simpa using h
        intro b hb
        rcases List.mem_cons.mp hb with rfl | hb2
        · exact ⟨a, by simp, hfa⟩
        · obtain ⟨a2, ha2, hfa2⟩ := ih bs hal b hb2
          exact ⟨a2, List.mem_cons_of_mem a ha2, hfa2⟩

/-- C1: every candle produced by the enrichment step comes from a raw
aggregated candle with the same timestamp; if some settlement window
contains that timestamp (and it is the unique such window, as the schedule
invariant guarantees), the candle's OHLC are the raw values plus that
window's accumulated diff and it carries that window's contract month; if
no window contains it, OHLC are unchanged, the diff is 0 and the contract
month is the empty string. -/
theorem C1_back_adjustment (cfg : List SettleRecord) (dfD dfN out : List Candle) (c : Candle)
    (hout : process_final_df cfg dfD dfN = some out) (hc : c ∈ out) :
    ∃ raw ∈ dfD ++ dfN, c.ts = raw.ts ∧
      ((∀ w ∈ cfg, inWindow w raw.ts = false) →
        c.Open = raw.Open ∧ c.High = raw.High ∧ c.Low = raw.Low ∧ c.Close = raw.Close ∧
        c.accumulated_contract_diff = 0 ∧ c.contract_year_month = "") ∧
      (∀ w ∈ cfg, inWindow w raw.ts = true →
        (∀ w2 ∈ cfg, inWindow w2 raw.ts = true → w2 = w) →
        ∃ d, w.accumulated_contract_diff = some d ∧
          c.Open = raw.Open + d ∧ c.High = raw.High + d ∧ c.Low = raw.Low + d ∧
          c.Close = raw.Close + d ∧
          c.accumulated_contract_diff = d ∧ c.contract_year_month = w.contract_year_month) := by
  unfold process_final_df at hout
  obtain ⟨r0, hr0mem, henr⟩ := applyRows_mem _ _ _ hout c hc
  obtain ⟨raw, hrawmem, hr0⟩ := List.mem_map.mp hr0mem
  have hrmem : raw ∈ dfD ++ dfN := (mem_sortByTs raw _).mp hrawmem
  subst hr0
  refine ⟨raw, hrmem, ?_⟩
  unfold enrich_row at henr
  have htseq : ({ raw with
      contract_year_month := "",
      accumulated_contract_diff := 0 } : Candle).ts = raw.ts := rfl
  rw [htseq] at henr
  rcases hh : (cfg.filter (fun w => inWindow w raw.ts)).head? with _ | w0
  · rw [hh] at henr
    obtain rfl : ({ raw with
        contract_year_month := "",
        accumulated_contract_diff := 0 } : Candle) = c := Option.some.inj henr
    refine ⟨rfl, fun _ => ⟨rfl, rfl, rfl, rfl, rfl, rfl⟩, ?_⟩
    intro w hw hwin _
    exfalso
    have : w ∈ cfg.filter (fun w2 => inWindow w2 raw.ts) :=
      List.mem_filter.mpr ⟨hw, hwin⟩
    rw [List.head?_eq_none_iff.mp hh] at this
    cases this
  · rw [hh] at henr
    have hw0mem : w0 ∈ cfg.filter (fun w => inWindow w raw.ts) := by
      cases hfil : cfg.filter (fun w => inWindow w raw.ts) with
      | nil => rw [hfil] at hh; cases hh
      | cons f fs =>
        rw [hfil] at hh
        obtain rfl : f = w0 := by simpa using hh
        exact hfil ▸ List.mem_cons_self f fs
    have hw0cfg : w0 ∈ cfg := List.mem_of_mem_filter hw0mem
    have hw0win : inWindow w0 raw.ts = true :=
      List.of_mem_filter (p := fun w => inWindow w raw.ts) hw0mem
    rcases hacc : w0.accumulated_contract_diff with _ | d
    · exfalso
      simp only [hacc] at henr
      exact Option.noConfusion henr
    · simp only [hacc, Option.some.injEq] at henr
      subst henr
      refine ⟨rfl, ?_, ?_⟩
      · intro hnone
        exact absurd hw0win (by rw [hnone w0 hw0cfg]; simp)
      · intro w hw hwin huniq
        obtain rfl : w0 = w := huniq w0 hw0cfg hw0win
        exact ⟨d, hacc, rfl, rfl, rfl, rfl, rfl, rfl⟩

/-- Witness for C1: one window `[0, 1000]` with accumulated diff 10 and one
raw candle at minute 500; the produced candle is the raw one shifted by 10
and tagged with the window's contract month. -/
theorem C1_back_adjustment_witness :
    ∃ raw ∈ ([⟨500, 100, 110, 90, 105, 7, "", 0⟩] : List Candle) ++ [],
      (⟨500, 110, 120, 100, 115, 7, "202403", 10⟩ : Candle).ts = raw.ts ∧
      ((∀ w ∈ ([⟨"202403", some 0, some 1000, some 1, some 10⟩] : List SettleRecord),
          inWindow w raw.ts = false) →
        (⟨500, 110, 120, 100, 115, 7, "202403", 10⟩ : Candle).Open = raw.Open ∧
        (⟨500, 110, 120, 100, 115, 7, "202403", 10⟩ : Candle).High = raw.High ∧
        (⟨500, 110, 120, 100, 115, 7, "202403", 10⟩ : Candle).Low = raw.Low ∧
        (⟨500, 110, 120, 100, 115, 7, "202403", 10⟩ : Candle).Close = raw.Close ∧
        (⟨500, 110, 120, 100, 115, 7, "202403", 10⟩ : Candle).accumulated_contract_diff = 0 ∧
        (⟨500, 110, 120, 100, 115, 7, "202403", 10⟩ : Candle).contract_year_month = "") ∧
      (∀ w ∈ ([⟨"202403", some 0, some 1000, some 1, some 10⟩] : List SettleRecord),
        inWindow w raw.ts = true →
        (∀ w2 ∈ ([⟨"202403", some 0, some 1000, some 1, some 10⟩] : List SettleRecord),
          inWindow w2 raw.ts = true → w2 = w) →
        ∃ d, w.accumulated_contract_diff = some d ∧
          (⟨500, 110, 120, 100, 115, 7, "202403", 10⟩ : Candle).Open = raw.Open + d ∧
          (⟨500, 110, 120, 100, 115, 7, "202403", 10⟩ : Candle).High = raw.High + d ∧
          (⟨500, 110, 120, 100, 115, 7, "202403", 10⟩ : Candle).Low = raw.Low + d ∧
          (⟨500, 110, 120, 100, 115, 7, "202403", 10⟩ : Candle).Close = raw.Close + d ∧
          (⟨500, 110, 120, 100, 115, 7, "202403", 10⟩ : Candle).accumulated_contract_diff = d ∧
          (⟨500, 110, 120, 100, 115, 7, "202403", 10⟩ : Candle).contract_year_month
            = w.contract_year_month) :=
  C1_back_adjustment [⟨"202403", some 0, some 1000, some 1, some 10⟩]
    [⟨500, 100, 110, 90, 105, 7, "", 0⟩] [] [⟨500, 110, 120, 100, 115, 7, "202403", 10⟩]
    ⟨500, 110, 120, 100, 115, 7, "202403", 10⟩ (by decide) (by decide)

/-! ### Next-contract prediction (C4) -/

theorem weekday_advanceToWed_aux : ∀ (fuel : Nat) (z : Int),
    (2 - weekday z) % 7 < (fuel : Int) → weekday (advanceToWed fuel z) = 2 := by
  intro fuel
  induction fuel with
  | zero =>
    intro z h
    exfalso
    unfold weekday at h
    omega
  | succ n ih =>
    intro z h
    unfold advanceToWed
    split_ifs with hw
    · exact hw
    · apply ih
      unfold weekday at *
      push_cast at h ⊢
      omega

/-- The day-by-day advance loop always stops on a Wednesday within its
fuel bound of 7. -/
theorem weekday_advanceToWed (z : Int) : weekday (advanceToWed 7 z) = 2 :=
  weekday_advanceToWed_aux 7 z (by unfold weekday; omega)

/-- C4: on a non-empty settlement schedule whose last record has a
parseable `YYYYMM`, `calculate_next_contract` returns
`"MXF" + new_ym` for the year-month of (first of the last record's month
+ 31 days) and appends the predicted record: settlement at the third
Wednesday of the new month (first of month + 14 days, advanced to a
Wednesday) at 13:25, window start 5 minutes after the previous
settlement, accumulated diff increased by the last `next_contract_diff`;
in particular the predicted settlement always falls on a Wednesday
(weekday 2) at time-of-day 13:25. -/
theorem C4_predict_next_contract (cfg : List SettleRecord) (lastRow : SettleRecord)
    (y m : Int) (hlast : cfg.getLast? = some lastRow)
    (hym : parseYm lastRow.contract_year_month = some (y, m)) :
    calculate_next_contract cfg =
      .ok ("MXF" ++ ymStr (civilFromDays (daysFromCivil y m 1 + 31)).1
            (civilFromDays (daysFromCivil y m 1 + 31)).2.1,
        cfg ++
          [{ contract_year_month :=
               ymStr (civilFromDays (daysFromCivil y m 1 + 31)).1
                 (civilFromDays (daysFromCivil y m 1 + 31)).2.1,
             start_k := lastRow.settle_k.map (fun t => t + 5),
             settle_k :=
               some (advanceToWed 7 (daysFromCivil
                   (civilFromDays (daysFromCivil y m 1 + 31)).1
                   (civilFromDays (daysFromCivil y m 1 + 31)).2.1 1 + 14) * 1440 + 805),
             next_contract_diff := none,
             accumulated_contract_diff :=
               addOpt lastRow.accumulated_contract_diff lastRow.next_contract_diff }]) ∧
    weekday ((advanceToWed 7 (daysFromCivil
        (civilFromDays (daysFromCivil y m 1 + 31)).1
        (civilFromDays (daysFromCivil y m 1 + 31)).2.1 1 + 14) * 1440 + 805) / 1440) = 2 ∧
    (advanceToWed 7 (daysFromCivil
        (civilFromDays (daysFromCivil y m 1 + 31)).1
        (civilFromDays (daysFromCivil y m 1 + 31)).2.1 1 + 14) * 1440 + 805) % 1440
      = 13 * 60 + 25 := by
  refine ⟨?_, ?_, by omega⟩
  · unfold calculate_next_contract
    rw [hlast]
    simp only [hym]
    rfl
  · have hq : (advanceToWed 7 (daysFromCivil
        (civilFromDays (daysFromCivil y m 1 + 31)).1
        (civilFromDays (daysFromCivil y m 1 + 31)).2.1 1 + 14) * 1440 + 805) / 1440
        = advanceToWed 7 (daysFromCivil
          (civilFromDays (daysFromCivil y m 1 + 31)).1
          (civilFromDays (daysFromCivil y m 1 + 31)).2.1 1 + 14) := by omega
    rw [hq]
    exact weekday_advanceToWed _

/-- Witness for C4: the spec scenario.  The schedule ends at contract
202403 with settlement 2024-03-20 13:25 (minute 28515685); the prediction
is MXF202404 with settlement 2024-04-17 13:25 (minute 28556005, the third
Wednesday of April 2024) and window start 2024-03-20 13:30. -/
theorem C4_predict_next_contract_witness :
    calculate_next_contract [⟨"202403", some 28515445, some 28515685, some 100, some 50⟩]
      = .ok ("MXF202404", [⟨"202403", some 28515445, some 28515685, some 100, some 50⟩,
        ⟨"202404", some 28515690, some 28556005, none, some 150⟩]) ∧
    weekday (28556005 / 1440) = 2 ∧ 28556005 % 1440 = 13 * 60 + 25 := by
  have h := C4_predict_next_contract
    [⟨"202403", some 28515445, some 28515685, some 100, some 50⟩]
    ⟨"202403", some 28515445, some 28515685, some 100, some 50⟩ 2024 3 (by decide) (by decide)
  exact ⟨h.1.trans (by rfl), by decide, by decide⟩

/-! ### Settlement-config loading failure modes (C8) -/

/-- C8 counterexample: a settlement sheet consisting of only the header row
is "empty after cleaning", yet `_load_config` succeeds with an empty
config (its `dropna` removes nothing, strings are never `NaN`); the
failure only surfaces in `calculate_next_contract` as the uncaught
`IndexError` of `iloc[-1]`, which is not the wrapped config error. -/
theorem C8_counterexample :
    load_config [["contract_year_month", "start_k", "settle_k", "next_contract_diff",
      "accumulated_contract_diff"]] = .ok [] ∧
    calculate_next_contract [] = .error PipelineErr.indexError ∧
    ∀ msg, (Except.error PipelineErr.indexError :
        Except PipelineErr (String × List SettleRecord)) ≠ .error (.configError msg) := by
  refine ⟨by rfl, rfl, fun msg h => ?_⟩
  injection h with h2
  cases h2

/-- C8 amended: an entirely empty worksheet does raise the wrapped config
`RuntimeError`, but a schedule that is merely empty after the header row
loads successfully as an empty config; its use then fails in
`calculate_next_contract` with an uncaught `IndexError`, and a last
record with unparseable `contract_year_month` fails there with an
uncaught `ValueError` — neither is the config error the claim names, so
the empty-after-cleaning case is not a `ConfigError` and `_load_config`
is not the only failure point of the roll calculator. -/
theorem C8_load_config_amended :
    (∃ msg, load_config ([] : List (List String)) = .error (.configError msg)) ∧
    load_config [["contract_year_month", "start_k", "settle_k", "next_contract_diff",
      "accumulated_contract_diff"]] = .ok [] ∧
    calculate_next_contract [] = .error PipelineErr.indexError ∧
    (∀ cfg lastRow, cfg.getLast? = some lastRow →
      parseYm lastRow.contract_year_month = none →
      calculate_next_contract cfg = .error PipelineErr.valueError) := by
  refine ⟨⟨"Error loading settle config", rfl⟩, by rfl, rfl, ?_⟩
  intro cfg lastRow h hn
  unfold calculate_next_contract
  rw [h]
  simp only [hn]

/-- Witness for the amended C8: a one-record config whose
`contract_year_month` does not parse makes `calculate_next_contract` fail
with the uncaught `ValueError`, not a `ConfigError`. -/
theorem C8_load_config_amended_witness :
    calculate_next_contract [⟨"bad", none, none, none, none⟩]
      = .error PipelineErr.valueError :=
  C8_load_config_amended.2.2.2 [⟨"bad", none, none, none, none⟩]
    ⟨"bad", none, none, none, none⟩ rfl rfl

/-! ### Incremental uploader (C5, C6, C7) -/

/-- C5: `_prepare_data` follows the three-case decision table.  Empty
destination: header (with `ts` first) plus all rows.  Header-only
destination: all rows restricted to the header's columns, no new header.
Header plus data: with the last data row's timestamp parsed from the `ts`
column (column 0 when the header has no `ts`), exactly the rows with a
strictly greater timestamp are selected, restricted to the header's
columns, with no header row. -/
theorem C5_prepare_data (newCols : List String) (rows : List NewRow)
    (existing : List (List Cell)) :
    (existing = [] →
      prepare_data newCols rows existing
        = ("ts" :: newCols.filter (fun c => decide (¬ c = "ts")), rows, true)) ∧
    (∀ headers, existing = [headers] →
      prepare_data newCols rows existing
        = (validCols headers ("ts" :: newCols), rows, false)) ∧
    (∀ headers rest, existing = headers :: rest → rest ≠ [] →
      ∀ lastTs, lastRowTs headers rest = some lastTs →
        (∀ r, r ∈ (prepare_data newCols rows existing).2.1 ↔ r ∈ rows ∧ lastTs < r.ts) ∧
        (prepare_data newCols rows existing).2.2 = false ∧
        (rows.filter (fun r => decide (lastTs < r.ts)) ≠ [] →
          (prepare_data newCols rows existing).1 = validCols headers ("ts" :: newCols))) := by
  refine ⟨?_, ?_, ?_⟩
  · rintro rfl
    rfl
  · rintro headers rfl
    rfl
  · rintro headers rest rfl hne lastTs hlast
    obtain ⟨r2, rs2, rfl⟩ := List.exists_cons_of_ne_nil hne
    have hred : prepare_data newCols rows (headers :: r2 :: rs2)
        = (if (rows.filter (fun r => decide (lastTs < r.ts))).isEmpty then ([], [], false)
           else (validCols headers ("ts" :: newCols),
             rows.filter (fun r => decide (lastTs < r.ts)), false)) := by
      simp only [prepare_data]
      rw [hlast]
    rw [hred]
    by_cases hsel : (rows.filter (fun r => decide (lastTs < r.ts))).isEmpty
    · rw [if_pos hsel]
      have hfe : rows.filter (fun r => decide (lastTs < r.ts)) = [] :=
        List.isEmpty_iff.mp hsel
      refine ⟨?_, rfl, fun hne2 => absurd hfe hne2⟩
      intro r
      constructor
      · intro h
        cases h
      · rintro ⟨hr, hlt⟩
        have hmem : r ∈ rows.filter (fun r => decide (lastTs < r.ts)) :=
          List.mem_filter.mpr ⟨hr, by simpa using hlt⟩
        rw [hfe] at hmem
        cases hmem
    · rw [if_neg hsel]
      refine ⟨?_, rfl, fun _ => rfl⟩
      intro r
      rw [List.mem_filter]
      simp

/-- Witness for C5 (the spec scenario): the destination holds a header and
one data row at minute 100; of two new rows at minutes 100 and 105, the
row at 105 is selected exactly because it is strictly newer. -/
theorem C5_prepare_data_witness :
    ((⟨105, [Cell.str "2"]⟩ : NewRow) ∈ (prepare_data ["Close"]
        [⟨100, [Cell.str "1"]⟩, ⟨105, [Cell.str "2"]⟩]
        [[Cell.str "ts", Cell.str "Close"], [Cell.tstamp 100, Cell.str "1"]]).2.1)
    ↔ ((⟨105, [Cell.str "2"]⟩ : NewRow)
          ∈ [(⟨100, [Cell.str "1"]⟩ : NewRow), ⟨105, [Cell.str "2"]⟩] ∧
        (100 : Int) < (⟨105, [Cell.str "2"]⟩ : NewRow).ts) :=
  ((C5_prepare_data ["Close"] [⟨100, [Cell.str "1"]⟩, ⟨105, [Cell.str "2"]⟩]
      [[Cell.str "ts", Cell.str "Close"], [Cell.tstamp 100, Cell.str "1"]]).2.2
    [Cell.str "ts", Cell.str "Close"] [[Cell.tstamp 100, Cell.str "1"]]
    rfl (by simp) 100 rfl).1 ⟨105, [Cell.str "2"]⟩

/-- C6: if the destination already has a header and data rows whose last
timestamp is at least every new row's timestamp, the uploader selects
nothing and performs no write. -/
theorem C6_uploader_idempotent (newCols : List String) (rows : List NewRow)
    (headers : List Cell) (rest : List (List Cell)) (lastTs : Int)
    (hne : rest ≠ []) (hlast : lastRowTs headers rest = some lastTs)
    (hall : ∀ r ∈ rows, r.ts ≤ lastTs) :
    prepare_data newCols rows (headers :: rest) = ([], [], false) ∧
    append_safely newCols rows (headers :: rest) = none := by
  obtain ⟨r2, rs2, rfl⟩ := List.exists_cons_of_ne_nil hne
  have hfe : rows.filter (fun r => decide (lastTs < r.ts)) = [] :=
    List.filter_eq_nil_iff.mpr (fun r hr => by simpa using not_lt.mpr (hall r hr))
  have hprep : prepare_data newCols rows (headers :: r2 :: rs2) = ([], [], false) := by
    simp only [prepare_data]
    rw [hlast]
    simp [hfe]
  refine ⟨hprep, ?_⟩
  unfold append_safely
  rw [hprep]
  rfl

/-- Witness for C6: the destination already ends at minute 100 and the only
new row is at minute 100, so nothing is appended. -/
theorem C6_uploader_idempotent_witness :
    prepare_data ["Close"] [⟨100, [Cell.str "1"]⟩]
      [[Cell.str "ts", Cell.str "Close"], [Cell.tstamp 100, Cell.str "1"]] = ([], [], false) ∧
    append_safely ["Close"] [⟨100, [Cell.str "1"]⟩]
      [[Cell.str "ts", Cell.str "Close"], [Cell.tstamp 100, Cell.str "1"]] = none :=
  C6_uploader_idempotent ["Close"] [⟨100, [Cell.str "1"]⟩]
    [Cell.str "ts", Cell.str "Close"] [[Cell.tstamp 100, Cell.str "1"]] 100
    (by simp) rfl (by decide)

/-- C7: if the completeness check raises for either timeframe, the run
ends in the integrity error and neither destination receives any rows —
no partial upload can happen on an integrity failure. -/
theorem C7_integrity_error_halts_uploads (newCols : List String) (rows5 rows60 : List NewRow)
    (sheet5 sheet60 : List (List Cell)) (now : Int)
    (h : (∃ e, check_completeness (fun r => r.ts)
          (drop_incomplete_current_session (fun r => r.ts) rows5 .five now) .five
          = .error e) ∨
        (∃ e, check_completeness (fun r => r.ts)
          (drop_incomplete_current_session (fun r => r.ts) rows60 .sixty now) .sixty
          = .error e)) :
    (∃ e, mainFlow newCols rows5 rows60 sheet5 sheet60 now = .error e) ∧
    ∀ w5 w60, mainFlow newCols rows5 rows60 sheet5 sheet60 now ≠ .ok (w5, w60) := by
  have hmain : ∃ e, mainFlow newCols rows5 rows60 sheet5 sheet60 now = .error e := by
    unfold mainFlow
    rcases h with ⟨e, he⟩ | ⟨e, he⟩
    · exact ⟨e, by rw [he]⟩
    · rcases hc5 : check_completeness (fun r => r.ts)
        (drop_incomplete_current_session (fun r => r.ts) rows5 .five now) .five with e5 | u5
      · exact ⟨e5, by rw [hc5]⟩
      · exact ⟨e, by rw [hc5, he]⟩
  refine ⟨hmain, ?_⟩
  obtain ⟨e, hm⟩ := hmain
  intro w5 w60 hcontra
  rw [hm] at hcontra
  cases hcontra

/-- Witness for C7: a single five-minute candle in the 2024-03-18 day
session (count 1, expected 60) while the wall clock sits in an
unclassified hour, so the trailing-session drop leaves it in place and the
completeness check aborts the run before any upload. -/
theorem C7_integrity_error_halts_uploads_witness :
    ∃ e, mainFlow [] [⟨28512540, []⟩] [] [] [] 28512840 = .error e :=
  (C7_integrity_error_halts_uploads [] [⟨28512540, []⟩] [] [] [] 28512840
    (Or.inl ⟨[(SessionId.day 19800, 1, 60)], by rfl⟩)).1
